import Mathlib

/-!
Verification development for the geotiff-to-coco repository
(src/geo_to_coco.py, class GeoTiffToCoco).

The Python pipeline is shallowly embedded below.  Python floats are
modelled as rationals (ℚ); pixel coordinates, which the code stores as
Python ints inside numpy arrays, are modelled as ℤ; image width/height
(rasterio src.width/src.height, always nonnegative) as ℕ.

External collaborators are modelled at their observable interface:
 - shapely's polygon-rectangle test polygon.intersects(image_poly)
   (used by polygon_intersects_image) is an oracle parameter
   o : GeoPolygon → GeoBounds → Bool threaded through the pipeline;
 - pyproj's Transformer (setup_coordinate_transformer) is the
   Option (ℚ × ℚ → ℚ × ℚ) field of ImageInfo: none models the
   EPSG:4326 branch that returns None, some t models a constructed
   transformer whose transform method is t;
 - shapely.wkt.loads applied to a CSV cell is modelled by the
   CsvCell inductive, which records whether the cell is a string and,
   when it is, whether loads succeeds (some geometry) or raises (none).

Numpy's behaviour on an empty coordinate array (IndexError on
coords_array[:, 0] in filter_valid_polygons_for_image) is modelled by
the LoadErr.emptyRing error; an uncaught Python exception is an
Except.error value.
-/

/-- Truncation toward zero, the behaviour of Python int() on a float:
floor for nonnegative arguments, ceiling for negative ones. -/
def ratTrunc (q : ℚ) : ℤ := if q < 0 then ⌈q⌉ else ⌊q⌋

/-- The six affine coefficients of a rasterio transform
(a, e pixel scale; c, f origin offset). -/
structure AffineTransform where
  a : ℚ
  b : ℚ
  c : ℚ
  d : ℚ
  e : ℚ
  f : ℚ
deriving DecidableEq

/-- A rasterio bounding box (left, bottom, right, top), the bounds
attribute of an opened raster. -/
structure GeoBounds where
  left : ℚ
  bottom : ℚ
  right : ℚ
  top : ℚ
deriving DecidableEq

/-- A shapely polygon as the pipeline reads it: the coordinate list of
its exterior ring (polygon.exterior.coords, closing vertex included)
together with its interior rings (polygon.interiors), which the
pipeline never reads. -/
structure GeoPolygon where
  exterior : List (ℚ × ℚ)
  interiors : List (List (ℚ × ℚ))
deriving DecidableEq

/-- One retained row of the building table after load_csv: the building
label and the polygon geometry. -/
structure Row where
  building : String
  geometry : GeoPolygon
deriving DecidableEq

/-- Metadata of one loaded raster tile (one entry of self.images_info):
identifier idx+1, filename, pixel size, affine transform, geographic
bounds, and the transformer that setup_coordinate_transformer returns
for its CRS (none exactly when the CRS is EPSG:4326). -/
structure ImageInfo where
  id : ℕ
  filename : String
  width : ℕ
  height : ℕ
  transform : AffineTransform
  bounds : GeoBounds
  transformer : Option (ℚ × ℚ → ℚ × ℚ)

/-- The optional CRS reprojection step at the top of geographic_to_pixel:
x, y = transformer.transform(lon, lat) when a transformer is present,
x, y = lon, lat otherwise. -/
def reproject (tr : Option (ℚ × ℚ → ℚ × ℚ)) (lon lat : ℚ) : ℚ × ℚ :=
  match tr with
  | some t => t (lon, lat)
  | none => (lon, lat)

/-- GeoTiffToCoco.geographic_to_pixel: optionally reproject, then invert
the affine transform with col = int((x - c) / a), row = int((y - f) / e),
where int() truncates toward zero. -/
def geographic_to_pixel (lon lat : ℚ) (t : AffineTransform)
    (tr : Option (ℚ × ℚ → ℚ × ℚ)) : ℤ × ℤ :=
  (ratTrunc (((reproject tr lon lat).1 - t.c) / t.a),
   ratTrunc (((reproject tr lon lat).2 - t.f) / t.e))

/-- GeoTiffToCoco.polygon_to_pixel_coords: map every vertex of
polygon.exterior.coords through geographic_to_pixel, in order.  The
interior rings of the polygon are not consulted. -/
def polygon_to_pixel_coords (p : GeoPolygon) (t : AffineTransform)
    (tr : Option (ℚ × ℚ → ℚ × ℚ)) : List (ℤ × ℤ) :=
  List.map (fun v => geographic_to_pixel v.1 v.2 t tr) p.exterior

/-- Minimum of a starting value and a list, the shape of numpy's
min over one axis of a nonempty array. -/
def foldMin (x : ℤ) (xs : List ℤ) : ℤ := List.foldl min x xs

/-- Maximum of a starting value and a list, the shape of numpy's
max over one axis of a nonempty array. -/
def foldMax (x : ℤ) (xs : List ℤ) : ℤ := List.foldl max x xs

/-- GeoTiffToCoco.get_bbox_from_coords: [x_min, y_min, x_max - x_min,
y_max - y_min] over the coordinate list (the int() casts are identities
because the pixel coordinates are already integers).  The empty case is
unreachable in the pipeline: numpy's min/max raise on an empty array. -/
def get_bbox_from_coords : List (ℤ × ℤ) → List ℤ
  | [] => []
  | c :: cs =>
    [foldMin c.1 (List.map Prod.fst cs),
     foldMin c.2 (List.map Prod.snd cs),
     foldMax c.1 (List.map Prod.fst cs) - foldMin c.1 (List.map Prod.fst cs),
     foldMax c.2 (List.map Prod.snd cs) - foldMin c.2 (List.map Prod.snd cs)]

/-- The flat [x1, y1, x2, y2, ...] list built by the extend loop of
get_segmentation_from_coords. -/
def flattenCoords : List (ℤ × ℤ) → List ℤ
  | [] => []
  | p :: rest => p.1 :: p.2 :: flattenCoords rest

/-- GeoTiffToCoco.get_segmentation_from_coords: the flattened ring
wrapped in a single-element outer list. -/
def get_segmentation_from_coords (coords : List (ℤ × ℤ)) : List (List ℤ) :=
  [flattenCoords coords]

/-- Consecutive vertex pairs of a ring including the wrap-around pair,
the index pairs (i, i+1) for i in range(-1, len-1) of calculate_area. -/
def cyclePairs : List (ℚ × ℚ) → List ((ℚ × ℚ) × (ℚ × ℚ))
  | [] => []
  | x :: xs => List.zip (x :: xs) (xs ++ [x])

/-- The signed shoelace sum: sum of x_i * y_(i+1) - x_(i+1) * y_i over
all consecutive pairs of the ring, wrap-around included. -/
def shoelace (coords : List (ℚ × ℚ)) : ℚ :=
  List.foldr (fun pq acc => (pq.1.1 * pq.2.2 - pq.2.1 * pq.1.2) + acc) 0
    (cyclePairs coords)

/-- GeoTiffToCoco.calculate_area: half the absolute value of the
shoelace sum. -/
def calculate_area (coords : List (ℚ × ℚ)) : ℚ :=
  1 / 2 * |shoelace coords|

/-- The integer pixel coordinates viewed as rationals, as numpy's
float arithmetic views the int array inside calculate_area. -/
def toQ (coords : List (ℤ × ℤ)) : List (ℚ × ℚ) :=
  List.map (fun p => ((p.1 : ℚ), (p.2 : ℚ))) coords

/-- numpy.clip(v, lo, hi) = min(max(v, lo), hi). -/
def clampVal (lo hi v : ℤ) : ℤ := min (max v lo) hi

/-- The per-axis clipping step of filter_valid_polygons_for_image:
x coordinates clipped into [0, width], y coordinates into [0, height],
each vertex independently. -/
def clampCoords (W H : ℕ) (coords : List (ℤ × ℤ)) : List (ℤ × ℤ) :=
  List.map (fun p => (clampVal 0 (W : ℤ) p.1, clampVal 0 (H : ℤ) p.2)) coords

/-- The fine pixel-bounds rejection test of
filter_valid_polygons_for_image on a nonempty coordinate list
c :: cs: max x < 0, or min x > width, or max y < 0, or min y > height. -/
def outOfBoundsB (W H : ℕ) (c : ℤ × ℤ) (cs : List (ℤ × ℤ)) : Bool :=
  decide (foldMax c.1 (List.map Prod.fst cs) < 0) ||
  decide ((W : ℤ) < foldMin c.1 (List.map Prod.fst cs)) ||
  decide (foldMax c.2 (List.map Prod.snd cs) < 0) ||
  decide ((H : ℤ) < foldMin c.2 (List.map Prod.snd cs))

/-- One surviving entry of the valid_polygons list: the building label,
the clipped pixel coordinates, and the originating table row index. -/
structure ValidPolygon where
  building : String
  coords : List (ℤ × ℤ)
  original_idx : ℕ
deriving DecidableEq

/-- Fatal errors of the embedded pipeline: the ValueError raised by
load_csv when a required column is missing, an exception escaping
shapely.wkt.loads on an unparsable geometry string, and the numpy
IndexError raised when an empty coordinate array is indexed. -/
inductive LoadErr
  | missingColumns
  | wktParseError
  | emptyRing
deriving DecidableEq

/-- The body of the per-row loop of filter_valid_polygons_for_image for
one (tile, row) pair: coarse intersects test (the oracle o models
shapely's polygon.intersects on the rectangle built from the tile
bounds), projection to pixel space, fine bounds test, per-axis clip,
area threshold.  Returns ok none when the row is skipped, ok (some vp)
when it survives as vp. -/
def processRow (ma : ℚ) (o : GeoPolygon → GeoBounds → Bool) (img : ImageInfo)
    (idx : ℕ) (r : Row) : Except LoadErr (Option ValidPolygon) :=
  if o r.geometry img.bounds then
    match polygon_to_pixel_coords r.geometry img.transform img.transformer with
    | [] => Except.error LoadErr.emptyRing
    | c :: cs =>
      if outOfBoundsB img.width img.height c cs then Except.ok none
      else
        if ma < calculate_area (toQ (clampCoords img.width img.height (c :: cs))) then
          Except.ok (some ⟨r.building, clampCoords img.width img.height (c :: cs), idx⟩)
        else Except.ok none
  else Except.ok none

/-- The row loop of filter_valid_polygons_for_image, threading the
table row index idx (df.iterrows over the reset index 0, 1, ...). -/
def filterRows (ma : ℚ) (o : GeoPolygon → GeoBounds → Bool) (img : ImageInfo) :
    ℕ → List Row → Except LoadErr (List ValidPolygon)
  | _, [] => Except.ok []
  | idx, r :: rs =>
    match processRow ma o img idx r with
    | Except.error e => Except.error e
    | Except.ok none => filterRows ma o img (idx + 1) rs
    | Except.ok (some vp) =>
      match filterRows ma o img (idx + 1) rs with
      | Except.error e => Except.error e
      | Except.ok rest => Except.ok (vp :: rest)

/-- GeoTiffToCoco.filter_valid_polygons_for_image over the whole table. -/
def filter_valid_polygons_for_image (ma : ℚ) (o : GeoPolygon → GeoBounds → Bool)
    (rows : List Row) (img : ImageInfo) : Except LoadErr (List ValidPolygon) :=
  filterRows ma o img 0 rows

/-- One COCO annotation record as assembled in create_coco_dataset. -/
structure Ann where
  id : ℕ
  image_id : ℕ
  category_id : ℕ
  segmentation : List (List ℤ)
  area : ℚ
  bbox : List ℤ
  iscrowd : ℕ
deriving DecidableEq

/-- One entry of self.annotation_mapping, the provenance record written
alongside each annotation. -/
structure MapRec where
  annotation_id : ℕ
  image_id : ℕ
  image_filename : String
  polygon_csv_idx : ℕ
  category_name : String
  category_id : ℕ
  bbox : List ℤ
  area : ℚ
deriving DecidableEq

/-- One COCO category record (supercategory is the constant
"building"). -/
structure CocoCategory where
  id : ℕ
  name : String
  supercategory : String
deriving DecidableEq

/-- One COCO image record as appended by load_images (the license and
date_captured constants are irrelevant to the claims and omitted). -/
structure CocoImage where
  id : ℕ
  width : ℕ
  height : ℕ
  file_name : String
deriving DecidableEq

/-- The serialized structure self.coco_format (info and licenses
metadata omitted): images, annotations and categories lists. -/
structure CocoData where
  images : List CocoImage
  annotations : List Ann
  categories : List CocoCategory
deriving DecidableEq

/-- First-seen-order deduplication, the behaviour of
pandas.unique on the building column; acc accumulates the labels
already seen, in order. -/
def uniqueAux : List String → List String → List String
  | acc, [] => acc
  | acc, x :: xs => uniqueAux (if x ∈ acc then acc else acc ++ [x]) xs

/-- The distinct building labels in first-seen order. -/
def uniqueFirst (l : List String) : List String := uniqueAux [] l

/-- The category table of load_csv: label at first-seen position idx is
category idx + 1, so self.categories[b] = indexOf b + 1. -/
def categoryId (cats : List String) (b : String) : ℕ :=
  List.indexOf b cats + 1

/-- The COCO categories list built by load_csv from the enumerated
distinct labels, starting at identifier i + 1. -/
def mkCategories : ℕ → List String → List CocoCategory
  | _, [] => []
  | i, n :: ns => ⟨i + 1, n, "building"⟩ :: mkCategories (i + 1) ns

/-- The annotation dictionary built for one surviving polygon in the
inner loop of create_coco_dataset. -/
def annotationFor (cats : List String) (img : ImageInfo) (annId : ℕ)
    (vp : ValidPolygon) : Ann :=
  ⟨annId, img.id, categoryId cats vp.building,
   get_segmentation_from_coords vp.coords,
   calculate_area (toQ vp.coords),
   get_bbox_from_coords vp.coords, 0⟩

/-- The mapping dictionary appended alongside the annotation. -/
def mappingFor (cats : List String) (img : ImageInfo) (annId : ℕ)
    (vp : ValidPolygon) : MapRec :=
  ⟨annId, img.id, img.filename, vp.original_idx, vp.building,
   categoryId cats vp.building, get_bbox_from_coords vp.coords,
   calculate_area (toQ vp.coords)⟩

/-- The inner loop of create_coco_dataset over the valid polygons of
one image: build annotation and mapping records, incrementing the
global annotation counter by one per appended annotation.  Returns the
produced records and the final counter value. -/
def buildAnns (cats : List String) (img : ImageInfo) :
    ℕ → List ValidPolygon → List Ann × List MapRec × ℕ
  | annId, [] => ([], [], annId)
  | annId, vp :: vps =>
    let rest := buildAnns cats img (annId + 1) vps
    (annotationFor cats img annId vp :: rest.1,
     mappingFor cats img annId vp :: rest.2.1, rest.2.2)

/-- The outer loop of create_coco_dataset over self.images_info,
threading the annotation counter across images. -/
def runImages (ma : ℚ) (o : GeoPolygon → GeoBounds → Bool)
    (cats : List String) (rows : List Row) :
    List ImageInfo → ℕ → Except LoadErr (List Ann × List MapRec × ℕ)
  | [], annId => Except.ok ([], [], annId)
  | img :: imgs, annId =>
    match filter_valid_polygons_for_image ma o rows img with
    | Except.error e => Except.error e
    | Except.ok vps =>
      match runImages ma o cats rows imgs (buildAnns cats img annId vps).2.2 with
      | Except.error e => Except.error e
      | Except.ok rest =>
        Except.ok ((buildAnns cats img annId vps).1 ++ rest.1,
                   (buildAnns cats img annId vps).2.1 ++ rest.2.1, rest.2.2)

/-- The COCO image record built from a loaded tile; load_images appends
images_info entries and coco_format images entries in lockstep, with
the same identifiers. -/
def toCocoImage (img : ImageInfo) : CocoImage :=
  ⟨img.id, img.width, img.height, img.filename⟩

/-- GeoTiffToCoco.create_coco_dataset restricted to its annotation
assembly core: inputs are the post-load state (images_info and the
retained table rows), the annotation counter starts at 1, and the
result is the coco_format structure plus the annotation_mapping list.
The TIFF-to-JPG conversion and JSON serialization steps do not alter
annotations, categories or identifiers and are not modelled. -/
def create_coco_dataset (ma : ℚ) (o : GeoPolygon → GeoBounds → Bool)
    (images : List ImageInfo) (rows : List Row) :
    Except LoadErr (CocoData × List MapRec) :=
  match runImages ma o (uniqueFirst (List.map Row.building rows)) rows images 1 with
  | Except.error e => Except.error e
  | Except.ok t =>
    Except.ok (⟨List.map toCocoImage images, t.1,
                mkCategories 0 (uniqueFirst (List.map Row.building rows))⟩, t.2.1)

/-- A parsed geometry value, classified by whether it carries the
exterior attribute that the load_csv validity mask tests with
hasattr(geom, 'exterior'): polygons do (including an empty polygon,
whose exterior ring has no coordinates), points and linestrings do
not. -/
inductive Geom
  | poly (p : GeoPolygon)
  | other
deriving DecidableEq

/-- One geometry cell of the CSV as read by pandas: a string cell
(shapely.wkt.loads either returns a geometry, some g, or raises, none),
or a missing value (float NaN, which is not a string and is passed
through unparsed). -/
inductive CsvCell
  | strCell (parsed : Option Geom)
  | nanCell
deriving DecidableEq

/-- The cell value after the loads conversion step (line 97): a
geometry object, or the NaN kept from a missing cell.  Neither is
Python None, so the 'geom is not None' conjunct of the validity mask
holds for every converted value; the hasattr conjunct selects the
polygons. -/
inductive GeomVal
  | geom (g : Geom)
  | nanVal
deriving DecidableEq

/-- The lambda of line 97: loads(wkt) if the cell is a string (raising
on an unparsable string), the cell itself otherwise. -/
def parseGeomCell : CsvCell → Except LoadErr GeomVal
  | CsvCell.strCell (some g) => Except.ok (GeomVal.geom g)
  | CsvCell.strCell none => Except.error LoadErr.wktParseError
  | CsvCell.nanCell => Except.ok GeomVal.nanVal

/-- The geometry-column conversion pass of load_csv over all rows; an
exception from loads on any row aborts the whole pass. -/
def convertGeoms : List (String × CsvCell) → Except LoadErr (List (String × GeomVal))
  | [] => Except.ok []
  | (b, cell) :: rest =>
    match parseGeomCell cell with
    | Except.error e => Except.error e
    | Except.ok g =>
      match convertGeoms rest with
      | Except.error e => Except.error e
      | Except.ok l => Except.ok ((b, g) :: l)

/-- The validity mask plus row extraction: a converted row is retained
exactly when its geometry value is not None and has the exterior
attribute, that is, when it is a polygon. -/
def rowOfItem (it : String × GeomVal) : Option Row :=
  match it.2 with
  | GeomVal.geom (Geom.poly p) => some ⟨it.1, p⟩
  | _ => none

/-- GeoTiffToCoco.load_csv: check the required columns, convert the
geometry column through loads, filter by the validity mask, and return
the retained rows (reset_index renumbers them 0, 1, ...).  hasCols
states whether both the 'building' and 'geometry' columns exist. -/
def load_csv (hasCols : Bool) (cells : List (String × CsvCell)) :
    Except LoadErr (List Row) :=
  if hasCols then
    match convertGeoms cells with
    | Except.error e => Except.error e
    | Except.ok items => Except.ok (List.filterMap rowOfItem items)
  else Except.error LoadErr.missingColumns

/-- Direct one-pass description of the rows load_csv retains when no
geometry string is unparsable: exactly the cells whose geometry is a
string parsing to a polygon. -/
def rowOfCell (c : String × CsvCell) : Option Row :=
  match c.2 with
  | CsvCell.strCell (some (Geom.poly p)) => some ⟨c.1, p⟩
  | _ => none

/-- No cell of the table is an unparsable geometry string. -/
def goodCells (cells : List (String × CsvCell)) : Bool :=
  List.all cells (fun c => !(decide (c.2 = CsvCell.strCell none)))

/-- Every vertex lies inside [0, W] × [0, H]. -/
def inBoundsB (W H : ℕ) (coords : List (ℤ × ℤ)) : Bool :=
  List.all coords (fun p =>
    decide (0 ≤ p.1) && decide (p.1 ≤ (W : ℤ)) &&
    decide (0 ≤ p.2) && decide (p.2 ≤ (H : ℤ)))

/-- The claimed well-formedness of a COCO bbox [x, y, w, h] for a tile
of width W and height H: nonnegative origin and size, contained in the
tile. -/
def bboxOk (W H : ℕ) : List ℤ → Bool
  | [x, y, w, h] =>
    decide (0 ≤ x) && decide (0 ≤ y) && decide (0 ≤ w) && decide (0 ≤ h) &&
    decide (x + w ≤ (W : ℤ)) && decide (y + h ≤ (H : ℤ))
  | _ => false

/-- Every (x, y) pair of a flat segmentation list lies inside
[0, W] × [0, H]. -/
def pairsOk (W H : ℕ) : List ℤ → Bool
  | [] => true
  | x :: y :: rest =>
    decide (0 ≤ x) && decide (x ≤ (W : ℤ)) &&
    decide (0 ≤ y) && decide (y ≤ (H : ℤ)) && pairsOk W H rest
  | [_] => false

/-- A segmentation is a single flat ring whose pairs all lie inside
[0, W] × [0, H]. -/
def segOk (W H : ℕ) : List (List ℤ) → Bool
  | [flat] => pairsOk W H flat
  | _ => false

/-! Helper lemmas about the list minimum/maximum folds. -/

lemma foldMin_le_start : ∀ (xs : List ℤ) (x : ℤ), foldMin x xs ≤ x
  | [], _ => le_refl _
  | y :: ys, x =>
    le_trans (foldMin_le_start ys (min x y)) (min_le_left x y)

lemma le_foldMin : ∀ (xs : List ℤ) (x c : ℤ), c ≤ x → (∀ y ∈ xs, c ≤ y) →
    c ≤ foldMin x xs
  | [], _, _, hx, _ => hx
  | y :: ys, x, c, hx, h =>
    le_foldMin ys (min x y) c (le_min hx (h y (List.mem_cons_self y ys)))
      (fun z hz => h z (List.mem_cons_of_mem y hz))

lemma start_le_foldMax : ∀ (xs : List ℤ) (x : ℤ), x ≤ foldMax x xs
  | [], _ => le_refl _
  | y :: ys, x =>
    le_trans (le_max_left x y) (start_le_foldMax ys (max x y))

lemma foldMax_le : ∀ (xs : List ℤ) (x c : ℤ), x ≤ c → (∀ y ∈ xs, y ≤ c) →
    foldMax x xs ≤ c
  | [], _, _, hx, _ => hx
  | y :: ys, x, c, hx, h =>
    foldMax_le ys (max x y) c (max_le hx (h y (List.mem_cons_self y ys)))
      (fun z hz => h z (List.mem_cons_of_mem y hz))

lemma foldMin_le_foldMax (xs : List ℤ) (x : ℤ) : foldMin x xs ≤ foldMax x xs :=
  le_trans (foldMin_le_start xs x) (start_le_foldMax xs x)

/-! Helper lemmas about clipping. -/

lemma clampVal_nonneg (hi v : ℤ) (h : 0 ≤ hi) : 0 ≤ clampVal 0 hi v :=
  le_min (le_max_right v 0) h

lemma clampVal_le_hi (hi v : ℤ) : clampVal 0 hi v ≤ hi :=
  min_le_right _ _

lemma mem_clampCoords (W H : ℕ) (l : List (ℤ × ℤ)) :
    ∀ p ∈ clampCoords W H l,
      0 ≤ p.1 ∧ p.1 ≤ (W : ℤ) ∧ 0 ≤ p.2 ∧ p.2 ≤ (H : ℤ) := by
  intro p hp
  rcases List.mem_map.1 hp with ⟨q, _, rfl⟩
  exact ⟨clampVal_nonneg _ _ (Int.ofNat_nonneg W), clampVal_le_hi _ _,
    clampVal_nonneg _ _ (Int.ofNat_nonneg H), clampVal_le_hi _ _⟩

lemma clampVal_id (hi v : ℤ) (h0 : 0 ≤ v) (h1 : v ≤ hi) : clampVal 0 hi v = v := by
  unfold clampVal
  rw [max_eq_left h0, min_eq_left h1]

lemma clampCoords_id {W H : ℕ} {coords : List (ℤ × ℤ)}
    (h : inBoundsB W H coords = true) : clampCoords W H coords = coords := by
  induction coords with
  | nil => rfl
  | cons p rest ih =>
    simp only [inBoundsB, List.all_cons, Bool.and_eq_true, decide_eq_true_eq] at h
    obtain ⟨⟨⟨⟨h1, h2⟩, h3⟩, h4⟩, hrest⟩ := h
    have hrest' : inBoundsB W H rest = true := by
      simp only [inBoundsB]
      exact hrest
    simp only [clampCoords, List.map_cons]
    rw [clampVal_id _ _ h1 h2, clampVal_id _ _ h3 h4]
    have := ih hrest'
    simp only [clampCoords] at this
    rw [this]

/-! Helper lemmas about the bbox and segmentation predicates. -/

lemma bboxOk_of_bounds (W H : ℕ) (c : ℤ × ℤ) (cs : List (ℤ × ℤ))
    (h : ∀ p ∈ c :: cs, 0 ≤ p.1 ∧ p.1 ≤ (W : ℤ) ∧ 0 ≤ p.2 ∧ p.2 ≤ (H : ℤ)) :
    bboxOk W H (get_bbox_from_coords (c :: cs)) = true := by
  have hc := h c (List.mem_cons_self c cs)
  have hx0 : ∀ y ∈ List.map Prod.fst cs, (0 : ℤ) ≤ y := by
    intro y hy
    rcases List.mem_map.1 hy with ⟨q, hq, rfl⟩
    exact (h q (List.mem_cons_of_mem c hq)).1
  have hxW : ∀ y ∈ List.map Prod.fst cs, y ≤ (W : ℤ) := by
    intro y hy
    rcases List.mem_map.1 hy with ⟨q, hq, rfl⟩
    exact (h q (List.mem_cons_of_mem c hq)).2.1
  have hy0 : ∀ y ∈ List.map Prod.snd cs, (0 : ℤ) ≤ y := by
    intro y hy
    rcases List.mem_map.1 hy with ⟨q, hq, rfl⟩
    exact (h q (List.mem_cons_of_mem c hq)).2.2.1
  have hyH : ∀ y ∈ List.map Prod.snd cs, y ≤ (H : ℤ) := by
    intro y hy
    rcases List.mem_map.1 hy with ⟨q, hq, rfl⟩
    exact (h q (List.mem_cons_of_mem c hq)).2.2.2
  have hxmin : (0 : ℤ) ≤ foldMin c.1 (List.map Prod.fst cs) :=
    le_foldMin _ _ _ hc.1 hx0
  have hymin : (0 : ℤ) ≤ foldMin c.2 (List.map Prod.snd cs) :=
    le_foldMin _ _ _ hc.2.2.1 hy0
  have hxmax : foldMax c.1 (List.map Prod.fst cs) ≤ (W : ℤ) :=
    foldMax_le _ _ _ hc.2.1 hxW
  have hymax : foldMax c.2 (List.map Prod.snd cs) ≤ (H : ℤ) :=
    foldMax_le _ _ _ hc.2.2.2 hyH
  have hxmm := foldMin_le_foldMax (List.map Prod.fst cs) c.1
  have hymm := foldMin_le_foldMax (List.map Prod.snd cs) c.2
  simp only [get_bbox_from_coords, bboxOk, Bool.and_eq_true, decide_eq_true_eq]
  refine ⟨⟨⟨⟨⟨hxmin, hymin⟩, by omega⟩, by omega⟩, by omega⟩, by omega⟩

lemma pairsOk_of_bounds (W H : ℕ) : ∀ (l : List (ℤ × ℤ)),
    (∀ p ∈ l, 0 ≤ p.1 ∧ p.1 ≤ (W : ℤ) ∧ 0 ≤ p.2 ∧ p.2 ≤ (H : ℤ)) →
    pairsOk W H (flattenCoords l) = true := by
  intro l
  induction l with
  | nil => intro _; rfl
  | cons p rest ih =>
    intro h
    have hp := h p (List.mem_cons_self p rest)
    simp only [flattenCoords, pairsOk, Bool.and_eq_true, decide_eq_true_eq]
    exact ⟨⟨⟨⟨hp.1, hp.2.1⟩, hp.2.2.1⟩, hp.2.2.2⟩,
      ih (fun q hq => h q (List.mem_cons_of_mem p hq))⟩

lemma segOk_of_bounds (W H : ℕ) (l : List (ℤ × ℤ))
    (h : ∀ p ∈ l, 0 ≤ p.1 ∧ p.1 ≤ (W : ℤ) ∧ 0 ≤ p.2 ∧ p.2 ≤ (H : ℤ)) :
    segOk W H (get_segmentation_from_coords l) = true :=
  pairsOk_of_bounds W H l h

/-! Helper lemmas about the category table. -/

lemma mem_uniqueAux : ∀ (l acc : List String) (x : String),
    x ∈ acc ∨ x ∈ l → x ∈ uniqueAux acc l
  | [], acc, x, h => by
    rcases h with h | h
    · exact h
    · cases h
  | y :: ys, acc, x, h => by
    apply mem_uniqueAux ys _ x
    rcases h with h | h
    · left
      by_cases hy : y ∈ acc
      · rw [if_pos hy]; exact h
      · rw [if_neg hy]; exact List.mem_append_left _ h
    · rcases List.mem_cons.1 h with rfl | h
      · left
        by_cases hy : x ∈ acc
        · rw [if_pos hy]; exact hy
        · rw [if_neg hy]
          exact List.mem_append_right _ (List.mem_singleton.2 rfl)
      · right; exact h

lemma mem_uniqueFirst {x : String} {l : List String} (h : x ∈ l) :
    x ∈ uniqueFirst l :=
  mem_uniqueAux l [] x (Or.inr h)

lemma mkCategories_mem : ∀ (cs : List String) (i : ℕ) (b : String), b ∈ cs →
    (⟨i + List.indexOf b cs + 1, b, "building"⟩ : CocoCategory) ∈ mkCategories i cs
  | [], _, _, h => absurd h (List.not_mem_nil _)
  | c :: cs', i, b, h => by
    by_cases hc : c = b
    · subst hc
      have : List.indexOf c (c :: cs') = 0 := by
        simp [List.indexOf, List.findIdx_cons]
      rw [this]
      exact List.mem_cons_self _ _
    · have hb : b ∈ cs' := by
        rcases List.mem_cons.1 h with rfl | h'
        · exact absurd rfl hc
        · exact h'
      have hidx : List.indexOf b (c :: cs') = List.indexOf b cs' + 1 := by
        simp only [List.indexOf, List.findIdx_cons]
        have : (c == b) = false := beq_eq_false_iff_ne.2 hc
        rw [this]
        rfl
      rw [hidx]
      have ih := mkCategories_mem cs' (i + 1) b hb
      have harith : i + (List.indexOf b cs' + 1) + 1 = i + 1 + List.indexOf b cs' + 1 := by
        omega
      rw [harith]
      exact List.mem_cons_of_mem _ ih

/-! Inversion lemmas for the assembly pipeline. -/

lemma processRow_some {ma : ℚ} {o : GeoPolygon → GeoBounds → Bool}
    {img : ImageInfo} {idx : ℕ} {r : Row} {vp : ValidPolygon}
    (h : processRow ma o img idx r = Except.ok (some vp)) :
    vp.building = r.building ∧ ma < calculate_area (toQ vp.coords) ∧
    ∃ c cs, vp.coords = clampCoords img.width img.height (c :: cs) := by
  unfold processRow at h
  by_cases ho : o r.geometry img.bounds = true
  · rw [if_pos ho] at h
    cases hpix : polygon_to_pixel_coords r.geometry img.transform img.transformer with
    | nil => simp only [hpix] at h; exact absurd h (by simp)
    | cons c cs =>
      simp only [hpix] at h
      by_cases hob : outOfBoundsB img.width img.height c cs = true
      · rw [if_pos hob] at h
        exact absurd h (by simp)
      · rw [if_neg hob] at h
        by_cases harea :
            ma < calculate_area (toQ (clampCoords img.width img.height (c :: cs)))
        · rw [if_pos harea] at h
          have hvp : vp = ⟨r.building, clampCoords img.width img.height (c :: cs), idx⟩ := by
            injection h with h'
            injection h' with h''
            exact h''.symm
          subst hvp
          exact ⟨rfl, harea, c, cs, rfl⟩
        · rw [if_neg harea] at h
          exact absurd h (by simp)
  · rw [if_neg ho] at h
    exact absurd h (by simp)

lemma filterRows_mem {ma : ℚ} {o : GeoPolygon → GeoBounds → Bool} {img : ImageInfo} :
    ∀ (rows : List Row) (idx : ℕ) (vps : List ValidPolygon),
    filterRows ma o img idx rows = Except.ok vps → ∀ vp ∈ vps,
    ∃ r ∈ rows, ∃ i, processRow ma o img i r = Except.ok (some vp) := by
  intro rows
  induction rows with
  | nil =>
    intro idx vps h vp hvp
    simp only [filterRows] at h
    injection h with h'
    subst h'
    cases hvp
  | cons r rs ih =>
    intro idx vps h vp hvp
    simp only [filterRows] at h
    cases hp : processRow ma o img idx r with
    | error e => rw [hp] at h; cases h
    | ok v =>
      rw [hp] at h
      cases v with
      | none =>
        rcases ih (idx + 1) vps h vp hvp with ⟨r', hr', i, hi⟩
        exact ⟨r', List.mem_cons_of_mem r hr', i, hi⟩
      | some vp0 =>
        cases hrest : filterRows ma o img (idx + 1) rs with
        | error e => rw [hrest] at h; cases h
        | ok rest =>
          rw [hrest] at h
          injection h with h'
          subst h'
          rcases List.mem_cons.1 hvp with rfl | hvp'
          · exact ⟨r, List.mem_cons_self r rs, idx, hp⟩
          · rcases ih (idx + 1) rest hrest vp hvp' with ⟨r', hr', i, hi⟩
            exact ⟨r', List.mem_cons_of_mem r hr', i, hi⟩

lemma range1_append (s m n : ℕ) :
    List.range' s m ++ List.range' (s + m) n = List.range' s (m + n) := by
  rw [Nat.add_comm m n]
  have h := List.range'_append s m n 1
  rw [Nat.one_mul] at h
  exact h

lemma buildAnns_ids (cats : List String) (img : ImageInfo) :
    ∀ (vps : List ValidPolygon) (annId : ℕ),
    List.map Ann.id (buildAnns cats img annId vps).1 =
      List.range' annId (buildAnns cats img annId vps).1.length ∧
    (buildAnns cats img annId vps).2.2 = annId + (buildAnns cats img annId vps).1.length := by
  intro vps
  induction vps with
  | nil => intro annId; simp [buildAnns]
  | cons vp rest ih =>
    intro annId
    rcases ih (annId + 1) with ⟨hmap, hcount⟩
    constructor
    · simp only [buildAnns, List.map_cons, List.length_cons]
      rw [hmap]
      have : (annotationFor cats img annId vp).id = annId := rfl
      rw [this]
      rfl
    · simp only [buildAnns, List.length_cons]
      omega

lemma buildAnns_mem (cats : List String) (img : ImageInfo) :
    ∀ (vps : List ValidPolygon) (annId : ℕ) (a : Ann),
    a ∈ (buildAnns cats img annId vps).1 →
    ∃ vp ∈ vps, ∃ k, a = annotationFor cats img k vp := by
  intro vps
  induction vps with
  | nil => intro annId a h; cases h
  | cons vp rest ih =>
    intro annId a h
    simp only [buildAnns] at h
    rcases List.mem_cons.1 h with rfl | h'
    · exact ⟨vp, List.mem_cons_self vp rest, annId, rfl⟩
    · rcases ih (annId + 1) a h' with ⟨vp', hvp', k, hk⟩
      exact ⟨vp', List.mem_cons_of_mem vp hvp', k, hk⟩

lemma runImages_ids (ma : ℚ) (o : GeoPolygon → GeoBounds → Bool)
    (cats : List String) (rows : List Row) :
    ∀ (imgs : List ImageInfo) (annId : ℕ) (t : List Ann × List MapRec × ℕ),
    runImages ma o cats rows imgs annId = Except.ok t →
    List.map Ann.id t.1 = List.range' annId t.1.length ∧
      t.2.2 = annId + t.1.length := by
  intro imgs
  induction imgs with
  | nil =>
    intro annId t h
    simp only [runImages] at h
    injection h with h'
    subst h'
    simp
  | cons img rest ih =>
    intro annId t h
    simp only [runImages] at h
    cases hf : filter_valid_polygons_for_image ma o rows img with
    | error e => simp only [hf] at h; exact absurd h (by simp)
    | ok vps =>
      simp only [hf] at h
      cases hrest : runImages ma o cats rows rest (buildAnns cats img annId vps).2.2 with
      | error e => simp only [hrest] at h; exact absurd h (by simp)
      | ok t' =>
        simp only [hrest] at h
        injection h with h'
        subst h'
        rcases buildAnns_ids cats img vps annId with ⟨hmap, hcount⟩
        rcases ih _ _ hrest with ⟨hmap', hcount'⟩
        constructor
        · simp only [List.map_append, List.length_append]
          rw [hmap, hmap', hcount]
          exact range1_append annId _ _
        · simp only [List.length_append]
          omega

lemma runImages_mem (ma : ℚ) (o : GeoPolygon → GeoBounds → Bool)
    (cats : List String) (rows : List Row) :
    ∀ (imgs : List ImageInfo) (annId : ℕ) (t : List Ann × List MapRec × ℕ),
    runImages ma o cats rows imgs annId = Except.ok t → ∀ a ∈ t.1,
    ∃ img ∈ imgs, ∃ vps, filter_valid_polygons_for_image ma o rows img = Except.ok vps ∧
      ∃ vp ∈ vps, ∃ k, a = annotationFor cats img k vp := by
  intro imgs
  induction imgs with
  | nil =>
    intro annId t h a ha
    simp only [runImages] at h
    injection h with h'
    subst h'
    cases ha
  | cons img rest ih =>
    intro annId t h a ha
    simp only [runImages] at h
    cases hf : filter_valid_polygons_for_image ma o rows img with
    | error e => simp only [hf] at h; exact absurd h (by simp)
    | ok vps =>
      simp only [hf] at h
      cases hrest : runImages ma o cats rows rest (buildAnns cats img annId vps).2.2 with
      | error e => simp only [hrest] at h; exact absurd h (by simp)
      | ok t' =>
        simp only [hrest] at h
        injection h with h'
        subst h'
        rcases List.mem_append.1 ha with ha' | ha'
        · rcases buildAnns_mem cats img vps annId a ha' with ⟨vp, hvp, k, hk⟩
          exact ⟨img, List.mem_cons_self img rest, vps, hf, vp, hvp, k, hk⟩
        · rcases ih _ _ hrest a ha' with ⟨img', himg', vps', hf', vp, hvp, k, hk⟩
          exact ⟨img', List.mem_cons_of_mem img himg', vps', hf', vp, hvp, k, hk⟩

/-! Helper lemmas about load_csv. -/

/-- The geometry value a good (parse-clean) cell converts to: the parsed
geometry for a string cell, NaN for a missing cell (the strCell-none
case is unreachable for good cells; its value is irrelevant). -/
def cellVal : CsvCell → GeomVal
  | CsvCell.strCell (some g) => GeomVal.geom g
  | CsvCell.strCell none => GeomVal.nanVal
  | CsvCell.nanCell => GeomVal.nanVal

lemma convertGeoms_good : ∀ (cells : List (String × CsvCell)),
    goodCells cells = true →
    convertGeoms cells = Except.ok (List.map (fun c => (c.1, cellVal c.2)) cells) := by
  intro cells
  induction cells with
  | nil => intro _; rfl
  | cons c cs ih =>
    intro h
    simp only [goodCells, List.all_cons, Bool.and_eq_true, Bool.not_eq_true',
      decide_eq_false_iff_not] at h
    obtain ⟨hc, hcs⟩ := h
    have hcs' : goodCells cs = true := by
      simp only [goodCells]
      exact hcs
    obtain ⟨b, cell⟩ := c
    simp only [convertGeoms]
    cases cell with
    | strCell parsed =>
      cases parsed with
      | none => exact absurd rfl hc
      | some g =>
        simp only [parseGeomCell, ih hcs', List.map_cons]
        rfl
    | nanCell =>
      simp only [parseGeomCell, ih hcs', List.map_cons]
      rfl

lemma rowOfItem_cellVal (c : String × CsvCell) :
    rowOfItem (c.1, cellVal c.2) = rowOfCell c := by
  obtain ⟨b, cell⟩ := c
  cases cell with
  | strCell parsed =>
    cases parsed with
    | none => rfl
    | some g => cases g with
      | poly p => rfl
      | other => rfl
  | nanCell => rfl

lemma convertGeoms_bad (b : String) (post : List (String × CsvCell)) :
    ∀ (pre : List (String × CsvCell)),
    convertGeoms (pre ++ (b, CsvCell.strCell none) :: post) =
      Except.error LoadErr.wktParseError
  | [] => by simp [convertGeoms, parseGeomCell]
  | (b', cell) :: pre' => by
    simp only [List.cons_append, convertGeoms]
    cases cell with
    | strCell parsed =>
      cases parsed with
      | none => rfl
      | some g =>
        simp only [parseGeomCell, List.append_eq, convertGeoms_bad b post pre']
    | nanCell =>
      simp only [parseGeomCell, List.append_eq, convertGeoms_bad b post pre']

/-! Concrete inputs and outputs used by the scenario claim, the
hole-dropping counterexample and the witnesses. -/

/-- The identity-like affine transform of the scenario:
a = 1, e = -1, c = 0, f = 640. -/
def tr640 : AffineTransform := ⟨1, 0, 0, 0, -1, 640⟩

/-- The geographic bounds of the scenario tile. -/
def bounds640 : GeoBounds := ⟨0, 0, 640, 640⟩

/-- The 640 x 640 scenario tile, EPSG:4326 so no transformer. -/
def img640 : ImageInfo := ⟨1, "tile640.tif", 640, 640, tr640, bounds640, none⟩

/-- The scenario ring [(10,630),(20,630),(20,620),(10,620)] as shapely
stores it, with the closing vertex appended by polygon.exterior.coords. -/
def ringHouse : List (ℚ × ℚ) := [(10, 630), (20, 630), (20, 620), (10, 620), (10, 630)]

/-- The scenario polygon: the ring above, no interior rings. -/
def polyHouse : GeoPolygon := ⟨ringHouse, []⟩

/-- The scenario table row: building "house". -/
def rowHouse : Row := ⟨"house", polyHouse⟩

/-- A polygon with the same exterior ring but one interior ring (a
hole), as shapely parses a two-ring POLYGON WKT. -/
def polyHole : GeoPolygon :=
  ⟨ringHouse, [[(12, 628), (15, 628), (15, 625), (12, 625), (12, 628)]]⟩

/-- The holed polygon's table row. -/
def rowHole : Row := ⟨"house", polyHole⟩

/-- An intersects oracle that always answers true: shapely's behaviour
on the scenario inputs, whose polygons lie inside the tile bounds. -/
def oT : GeoPolygon → GeoBounds → Bool := fun _ _ => true

/-- An intersects oracle that always answers false: shapely's behaviour
when every polygon lies strictly outside every tile's bounds. -/
def oF : GeoPolygon → GeoBounds → Bool := fun _ _ => false

/-- The projected (and here clip-invariant) pixel ring of the scenario
polygon. -/
def pixelHouse : List (ℤ × ℤ) := [(10, 10), (20, 10), (20, 20), (10, 20), (10, 10)]

/-- The single annotation the scenario must produce. -/
def annHouse : Ann :=
  ⟨1, 1, 1, [[10, 10, 20, 10, 20, 20, 10, 20, 10, 10]], 100, [10, 10, 10, 10], 0⟩

/-- The mapping record written alongside the scenario annotation. -/
def mapHouse : MapRec := ⟨1, 1, "tile640.tif", 0, "house", 1, [10, 10, 10, 10], 100⟩

/-- The full scenario dataset: one image, one annotation, one
category. -/
def dHouse : CocoData :=
  ⟨[⟨1, 640, 640, "tile640.tif"⟩], [annHouse], [⟨1, "house", "building"⟩]⟩

/-- The dataset of a run in which the coarse test rejects every
(tile, polygon) pair: the image and the category are present, no
annotation is. -/
def dNone : CocoData :=
  ⟨[⟨1, 640, 640, "tile640.tif"⟩], [], [⟨1, "house", "building"⟩]⟩

/-- The identity-like transform used by the projection witness. -/
def trId : AffineTransform := ⟨1, 0, 0, 0, 1, 0⟩

/-! Evaluation lemmas for the concrete scenario run. -/

lemma pix_house (p : GeoPolygon) (hext : p.exterior = ringHouse) :
    polygon_to_pixel_coords p tr640 none = pixelHouse := by
  unfold polygon_to_pixel_coords
  rw [hext]
  norm_num [ringHouse, geographic_to_pixel, reproject, ratTrunc, tr640, pixelHouse]

lemma area_house : calculate_area (toQ pixelHouse) = 100 := by
  norm_num [calculate_area, shoelace, cyclePairs, toQ, pixelHouse]

lemma processRow_house (o : GeoPolygon → GeoBounds → Bool) (p : GeoPolygon)
    (hext : p.exterior = ringHouse) (ho : o p bounds640 = true) :
    processRow 10 o img640 0 ⟨"house", p⟩ = Except.ok (some ⟨"house", pixelHouse, 0⟩) := by
  have hob : outOfBoundsB img640.width img640.height (10, 10)
      [(20, 10), (20, 20), (10, 20), (10, 10)] = false := by decide
  have hcl : clampCoords img640.width img640.height
      [(10, 10), (20, 10), (20, 20), (10, 20), (10, 10)] = pixelHouse := by decide
  have hlt : (10 : ℚ) < calculate_area (toQ pixelHouse) := by
    rw [area_house]; norm_num
  unfold processRow
  rw [show (⟨"house", p⟩ : Row).geometry = p from rfl,
    show img640.bounds = bounds640 from rfl, ho, if_pos rfl,
    show img640.transform = tr640 from rfl,
    show img640.transformer = (none : Option (ℚ × ℚ → ℚ × ℚ)) from rfl,
    pix_house p hext]
  rw [show pixelHouse = ((10, 10) : ℤ × ℤ) :: [((20 : ℤ), (10 : ℤ)), (20, 20), (10, 20), (10, 10)] from rfl]
  simp only [hob, Bool.false_eq_true, if_false, hcl, hlt, if_true]
  rfl

lemma filter_house (o : GeoPolygon → GeoBounds → Bool) (p : GeoPolygon)
    (hext : p.exterior = ringHouse) (ho : o p bounds640 = true) :
    filter_valid_polygons_for_image 10 o [⟨"house", p⟩] img640 =
      Except.ok [⟨"house", pixelHouse, 0⟩] := by
  unfold filter_valid_polygons_for_image filterRows
  rw [processRow_house o p hext ho]
  rfl

lemma create_house (o : GeoPolygon → GeoBounds → Bool) (p : GeoPolygon)
    (hext : p.exterior = ringHouse) (ho : o p bounds640 = true) :
    create_coco_dataset 10 o [img640] [⟨"house", p⟩] = Except.ok (dHouse, [mapHouse]) := by
  have hbuild : buildAnns ["house"] img640 1 [⟨"house", pixelHouse, 0⟩] =
      ([annHouse], [mapHouse], 2) := by
    unfold buildAnns buildAnns annotationFor mappingFor
    have hbb : get_bbox_from_coords pixelHouse = [10, 10, 10, 10] := by decide
    have hseg : get_segmentation_from_coords pixelHouse =
        [[10, 10, 20, 10, 20, 20, 10, 20, 10, 10]] := by decide
    rw [hbb, hseg, area_house]
    rfl
  have hcats : uniqueFirst (List.map Row.building [(⟨"house", p⟩ : Row)]) = ["house"] := rfl
  unfold create_coco_dataset
  rw [hcats]
  simp only [runImages]
  rw [filter_house o p hext ho]
  dsimp only
  rw [hbuild]
  dsimp only
  rfl

/-! The claims. -/

/-- Claim C1 (corrected): geographic_to_pixel computes col and row with
Python int(), which truncates toward zero, not with floor; the floor
formula of the claim holds exactly when the two quotients are
nonnegative.  For every geographic point, affine transform and optional
reprojection step yielding (x, y), if (x - c) / a and (y - f) / e are
nonnegative then the returned pixel is
(floor ((x - c) / a), floor ((y - f) / e)). -/
theorem c1_pixel_trunc_eq_floor_of_nonneg (lon lat : ℚ) (t : AffineTransform)
    (tr : Option (ℚ × ℚ → ℚ × ℚ))
    (h1 : 0 ≤ ((reproject tr lon lat).1 - t.c) / t.a)
    (h2 : 0 ≤ ((reproject tr lon lat).2 - t.f) / t.e) :
    geographic_to_pixel lon lat t tr =
      (⌊((reproject tr lon lat).1 - t.c) / t.a⌋,
       ⌊((reproject tr lon lat).2 - t.f) / t.e⌋) := by
  unfold geographic_to_pixel ratTrunc
  rw [if_neg (not_lt.mpr h1), if_neg (not_lt.mpr h2)]

/-- Witness for C1 at the point (0, 0) with an identity-like transform:
both quotients are nonnegative and the floor formula holds there. -/
theorem c1_pixel_trunc_witness :
    (0 ≤ ((reproject none (0 : ℚ) 0).1 - trId.c) / trId.a) ∧
    (0 ≤ ((reproject none (0 : ℚ) 0).2 - trId.f) / trId.e) ∧
    geographic_to_pixel 0 0 trId none =
      (⌊((reproject none (0 : ℚ) 0).1 - trId.c) / trId.a⌋,
       ⌊((reproject none (0 : ℚ) 0).2 - trId.f) / trId.e⌋) :=
  ⟨by simp [reproject, trId], by simp [reproject, trId],
   c1_pixel_trunc_eq_floor_of_nonneg 0 0 trId none (by simp [reproject, trId])
     (by simp [reproject, trId])⟩

/-- Counterexample to C1 as stated: at lon = -1/2, lat = 1/2 with the
transform a = 1, e = -1, c = f = 0 (no reprojection), the code returns
(int(-1/2), int(-1/2)) = (0, 0), while the claimed floor formula gives
(-1, -1). -/
theorem c1_floor_counterexample :
    geographic_to_pixel (-1/2) (1/2) ⟨1, 0, 0, 0, -1, 0⟩ none ≠
      (⌊(((-1 : ℚ)/2) - 0) / 1⌋, ⌊(((1 : ℚ)/2) - 0) / (-1)⌋) := by
  have h1 : geographic_to_pixel (-1/2) (1/2) ⟨1, 0, 0, 0, -1, 0⟩ none = (0, 0) := by
    norm_num [geographic_to_pixel, reproject, ratTrunc]
  have h2 : ((⌊(((-1 : ℚ)/2) - 0) / 1⌋ : ℤ), (⌊(((1 : ℚ)/2) - 0) / (-1)⌋ : ℤ)) =
      ((-1 : ℤ), (-1 : ℤ)) := by
    norm_num
  rw [h1, h2]
  decide

/-- Claim C2 (confirmed): after a complete run of create_coco_dataset
emitting N annotations, the annotation identifiers in emission order
are exactly 1, 2, ..., N: the counter starts at 1 and increments by one
exactly when an annotation is appended, and every discard happens
before identifier assignment. -/
theorem c2_annotation_ids_contiguous (ma : ℚ) (o : GeoPolygon → GeoBounds → Bool)
    (images : List ImageInfo) (rows : List Row) (d : CocoData) (m : List MapRec)
    (h : create_coco_dataset ma o images rows = Except.ok (d, m)) :
    List.map Ann.id d.annotations = List.range' 1 d.annotations.length := by
  unfold create_coco_dataset at h
  cases hr : runImages ma o (uniqueFirst (List.map Row.building rows)) rows images 1 with
  | error e => simp only [hr] at h; exact absurd h (by simp)
  | ok t =>
    simp only [hr] at h
    injection h with h'
    injection h' with hd hm
    subst hd
    exact (runImages_ids ma o _ rows images 1 t hr).1

/-- Witness for C2: the scenario run succeeds and its single annotation
carries identifier 1 = range' 1 1. -/
theorem c2_annotation_ids_witness :
    (create_coco_dataset 10 oT [img640] [rowHouse] = Except.ok (dHouse, [mapHouse])) ∧
    List.map Ann.id dHouse.annotations = List.range' 1 dHouse.annotations.length :=
  ⟨create_house oT polyHouse rfl rfl,
   c2_annotation_ids_contiguous 10 oT [img640] [rowHouse] dHouse [mapHouse]
     (create_house oT polyHouse rfl rfl)⟩

/-- Claim C3 (confirmed): in the dataset produced by a successful run of
create_coco_dataset, every annotation's image_id is the id of some
entry of the images list and every annotation's category_id is the id
of some entry of the categories list. -/
theorem c3_referential_integrity (ma : ℚ) (o : GeoPolygon → GeoBounds → Bool)
    (images : List ImageInfo) (rows : List Row) (d : CocoData) (m : List MapRec)
    (h : create_coco_dataset ma o images rows = Except.ok (d, m)) :
    List.all d.annotations (fun a =>
      List.any d.images (fun i => a.image_id == i.id) &&
      List.any d.categories (fun c => a.category_id == c.id)) = true := by
  unfold create_coco_dataset at h
  cases hr : runImages ma o (uniqueFirst (List.map Row.building rows)) rows images 1 with
  | error e => simp only [hr] at h; exact absurd h (by simp)
  | ok t =>
    simp only [hr] at h
    injection h with h'
    injection h' with hd hm
    subst hd
    rw [List.all_eq_true]
    intro a ha
    obtain ⟨img, himg, vps, hf, vp, hvp, k, hk⟩ :=
      runImages_mem ma o _ rows images 1 t hr a ha
    subst hk
    rw [Bool.and_eq_true]
    constructor
    · rw [List.any_eq_true]
      refine ⟨toCocoImage img, List.mem_map_of_mem _ himg, ?_⟩
      simp [annotationFor, toCocoImage]
    · rw [List.any_eq_true]
      obtain ⟨r, hrmem, i, hpr⟩ := filterRows_mem rows 0 vps hf vp hvp
      obtain ⟨hbuilding, _, _⟩ := processRow_some hpr
      have hmem : vp.building ∈ List.map Row.building rows := by
        rw [hbuilding]
        exact List.mem_map_of_mem _ hrmem
      have hcat := mkCategories_mem (uniqueFirst (List.map Row.building rows)) 0
        vp.building (mem_uniqueFirst hmem)
      refine ⟨_, hcat, ?_⟩
      simp [annotationFor, categoryId]

/-- Witness for C3: the scenario run succeeds and its annotation
references image 1 and category 1, both present. -/
theorem c3_referential_integrity_witness :
    (create_coco_dataset 10 oT [img640] [rowHouse] = Except.ok (dHouse, [mapHouse])) ∧
    List.all dHouse.annotations (fun a =>
      List.any dHouse.images (fun i => a.image_id == i.id) &&
      List.any dHouse.categories (fun c => a.category_id == c.id)) = true :=
  ⟨create_house oT polyHouse rfl rfl,
   c3_referential_integrity 10 oT [img640] [rowHouse] dHouse [mapHouse]
     (create_house oT polyHouse rfl rfl)⟩

/-- Claim C4 (confirmed): every annotation of a successful
create_coco_dataset run has area strictly greater than the configured
minimum-area threshold; a clipped pixel ring whose area is at most the
threshold is discarded and yields no annotation. -/
theorem c4_area_threshold (ma : ℚ) (o : GeoPolygon → GeoBounds → Bool)
    (images : List ImageInfo) (rows : List Row) (d : CocoData) (m : List MapRec)
    (h : create_coco_dataset ma o images rows = Except.ok (d, m)) :
    List.all d.annotations (fun a => decide (ma < a.area)) = true := by
  unfold create_coco_dataset at h
  cases hr : runImages ma o (uniqueFirst (List.map Row.building rows)) rows images 1 with
  | error e => simp only [hr] at h; exact absurd h (by simp)
  | ok t =>
    simp only [hr] at h
    injection h with h'
    injection h' with hd hm
    subst hd
    rw [List.all_eq_true]
    intro a ha
    obtain ⟨img, himg, vps, hf, vp, hvp, k, hk⟩ :=
      runImages_mem ma o _ rows images 1 t hr a ha
    subst hk
    obtain ⟨r, hrmem, i, hpr⟩ := filterRows_mem rows 0 vps hf vp hvp
    obtain ⟨_, harea, _⟩ := processRow_some hpr
    rw [decide_eq_true_eq]
    exact harea

/-- Witness for C4: the scenario run succeeds and its annotation has
area 100 > 10 = min_area. -/
theorem c4_area_threshold_witness :
    (create_coco_dataset 10 oT [img640] [rowHouse] = Except.ok (dHouse, [mapHouse])) ∧
    List.all dHouse.annotations (fun a => decide ((10 : ℚ) < a.area)) = true :=
  ⟨create_house oT polyHouse rfl rfl,
   c4_area_threshold 10 oT [img640] [rowHouse] dHouse [mapHouse]
     (create_house oT polyHouse rfl rfl)⟩

/-- Claim C5 (corrected): per-axis clamping does not in general decrease
the shoelace area, but it does (with equality) whenever every vertex of
the projected ring already lies inside [0, W] x [0, H], because the
clamp is then the identity. -/
theorem c5_clip_area_monotone_of_inbounds (W H : ℕ) (coords : List (ℤ × ℤ))
    (h : inBoundsB W H coords = true) :
    calculate_area (toQ (clampCoords W H coords)) ≤ calculate_area (toQ coords) := by
  rw [clampCoords_id h]

/-- Witness for C5: the scenario pixel ring lies inside the 640 x 640
tile and its clipped area is (equal hence) at most its area. -/
theorem c5_clip_area_witness :
    (inBoundsB 640 640 pixelHouse = true) ∧
    calculate_area (toQ (clampCoords 640 640 pixelHouse)) ≤ calculate_area (toQ pixelHouse) :=
  ⟨by decide, c5_clip_area_monotone_of_inbounds 640 640 pixelHouse (by decide)⟩

/-- The diagonal pixel ring of the C5 counterexample: four collinear
vertices straddling the tile corner. -/
def coordsDiag : List (ℤ × ℤ) := [(-3, -3), (8, 8), (7, 7), (-2, -2)]

/-- Counterexample to C5 as stated: for a 10 x 5 tile the ring
[(-3,-3),(8,8),(7,7),(-2,-2)] survives the fine bounds test, its
unclipped shoelace area is 0, yet its per-axis clamped ring
[(0,0),(8,5),(7,5),(0,0)] has area 5/2, so clipped area is NOT at most
unclipped area. -/
theorem c5_clip_area_counterexample :
    (outOfBoundsB 10 5 (-3, -3) [(8, 8), (7, 7), (-2, -2)] = false) ∧
    ¬ (calculate_area (toQ (clampCoords 10 5 coordsDiag)) ≤ calculate_area (toQ coordsDiag)) := by
  constructor
  · decide
  · have h1 : clampCoords 10 5 coordsDiag = [(0, 0), (8, 5), (7, 5), (0, 0)] := by decide
    rw [h1]
    norm_num [calculate_area, shoelace, cyclePairs, toQ, coordsDiag]

/-- Claim C6 (corrected): the pipeline does not fail fast on polygons
with interior rings; polygon_to_pixel_coords reads only
polygon.exterior.coords, so the pixel ring of a polygon with holes is
the pixel ring of its exterior alone, and the holes are silently
dropped without any error. -/
theorem c6_interiors_ignored (ext : List (ℚ × ℚ)) (ints : List (List (ℚ × ℚ)))
    (t : AffineTransform) (tr : Option (ℚ × ℚ → ℚ × ℚ)) :
    polygon_to_pixel_coords ⟨ext, ints⟩ t tr = polygon_to_pixel_coords ⟨ext, []⟩ t tr :=
  rfl

/-- Counterexample to C6 as stated: a polygon with one interior ring
runs through the whole pipeline without any error, producing an
annotation whose segmentation is the flattened exterior ring only (the
hole never appears); the run is not aborted. -/
theorem c6_no_failfast_counterexample :
    (polyHole.interiors ≠ []) ∧
    create_coco_dataset 10 oT [img640] [rowHole] = Except.ok (dHouse, [mapHouse]) :=
  ⟨by simp [polyHole], create_house oT polyHole rfl rfl⟩

/-- Claim C7 (corrected): an unparsable geometry string is NOT skipped:
the exception from shapely.wkt.loads escapes the conversion pass, so a
table containing any unparsable WKT string aborts the whole load,
whatever the rows before and after it are. -/
theorem c7_bad_wkt_aborts_load (pre post : List (String × CsvCell)) (b : String) :
    load_csv true (pre ++ (b, CsvCell.strCell none) :: post) =
      Except.error LoadErr.wktParseError := by
  unfold load_csv
  rw [if_pos rfl, convertGeoms_bad b post pre]

/-- A triangle polygon used by the load counterexamples. -/
def polyTri : GeoPolygon := ⟨[(0, 0), (1, 0), (0, 1), (0, 0)], []⟩

/-- A table with two parsable polygon rows around one unparsable WKT
string row. -/
def cellsBad : List (String × CsvCell) :=
  [("house", CsvCell.strCell (some (Geom.poly polyTri))),
   ("hut", CsvCell.strCell none),
   ("house", CsvCell.strCell (some (Geom.poly polyTri)))]

/-- Counterexample to C7 as stated: loading a table whose middle row has
an unparsable geometry string aborts the batch with a parse error
instead of skipping that row and retaining the two good rows. -/
theorem c7_skip_row_counterexample :
    load_csv true cellsBad = Except.error LoadErr.wktParseError ∧
    load_csv true cellsBad ≠ Except.ok [⟨"house", polyTri⟩, ⟨"house", polyTri⟩] :=
  ⟨rfl, by
    intro hc
    rw [show load_csv true cellsBad = Except.error LoadErr.wktParseError from rfl] at hc
    cases hc⟩

/-- Claim C8 (corrected): load_csv does not check vertex counts.  When
no geometry string is unparsable, the retained rows are exactly those
whose geometry parses to a polygon (an object carrying the exterior
attribute): null/NaN geometries and non-polygonal geometries are
excluded, but a polygon with fewer than 3 vertices is retained. -/
theorem c8_load_retains_exactly_polygons (cells : List (String × CsvCell))
    (h : goodCells cells = true) :
    load_csv true cells = Except.ok (List.filterMap rowOfCell cells) := by
  unfold load_csv
  rw [if_pos rfl, convertGeoms_good cells h]
  dsimp only
  rw [List.filterMap_map]
  have hfun : (rowOfItem ∘ fun c => (c.1, cellVal c.2)) = rowOfCell :=
    funext fun c => rowOfItem_cellVal c
  rw [hfun]

/-- A mixed table: a polygon row, a missing-value row, and a
non-polygonal geometry row. -/
def cellsMix : List (String × CsvCell) :=
  [("house", CsvCell.strCell (some (Geom.poly polyTri))),
   ("hut", CsvCell.nanCell),
   ("shed", CsvCell.strCell (some Geom.other))]

/-- Witness for C8: on the mixed table the load retains exactly the
polygon row, skipping the NaN row and the exterior-less geometry row. -/
theorem c8_load_retains_witness :
    (goodCells cellsMix = true) ∧
    load_csv true cellsMix = Except.ok (List.filterMap rowOfCell cellsMix) :=
  ⟨by decide, c8_load_retains_exactly_polygons cellsMix (by decide)⟩

/-- The single-row table whose geometry is an empty polygon (the parse
of the WKT string POLYGON EMPTY: it carries an exterior attribute, so
hasattr(geom, 'exterior') holds, with an empty coordinate ring). -/
def cellsEmptyPoly : List (String × CsvCell) :=
  [("house", CsvCell.strCell (some (Geom.poly ⟨[], []⟩)))]

/-- Counterexample to C8 as stated: the empty polygon, which has 0 < 3
vertices, is retained by load_csv rather than excluded, because the
validity mask checks only non-nullness and the exterior attribute,
never the vertex count. -/
theorem c8_minvertices_counterexample :
    load_csv true cellsEmptyPoly = Except.ok [⟨"house", ⟨[], []⟩⟩] ∧
    ¬ (3 ≤ (GeoPolygon.mk [] []).exterior.length) :=
  ⟨rfl, by decide⟩

/-- Claim C9 (confirmed): on a 640 x 640 tile with transform a = 1,
e = -1, c = 0, f = 640 and no reprojection, the single source polygon
with ring [(10,630),(20,630),(20,620),(10,620)] labeled "house"
(whose coarse intersects test shapely answers true, the polygon lying
inside the tile bounds) yields exactly one annotation: bbox
[10,10,10,10], area 100, category_id 1, where category 1 is named
"house". -/
theorem c9_scenario (o : GeoPolygon → GeoBounds → Bool)
    (ho : o polyHouse bounds640 = true) :
    create_coco_dataset 10 o [img640] [rowHouse] = Except.ok (dHouse, [mapHouse]) :=
  create_house o polyHouse rfl ho

/-- Witness for C9: instantiating the intersects oracle with the
constantly-true oracle (shapely's answer on these inputs). -/
theorem c9_scenario_witness :
    (oT polyHouse bounds640 = true) ∧
    create_coco_dataset 10 oT [img640] [rowHouse] = Except.ok (dHouse, [mapHouse]) :=
  ⟨rfl, c9_scenario oT rfl⟩

/-- Claim C10 (confirmed): every annotation of a successful
create_coco_dataset run belongs to an image record of the dataset such
that, for that image's pixel width W and height H, the bbox
[x_min, y_min, w, h] satisfies 0 <= x_min, 0 <= y_min, 0 <= w,
0 <= h, x_min + w <= W, y_min + h <= H, and every coordinate pair of
the segmentation ring lies inside [0, W] x [0, H], because all
vertices are clamped into the tile bounds before any metric is
computed. -/
theorem c10_bbox_segmentation_within_bounds (ma : ℚ)
    (o : GeoPolygon → GeoBounds → Bool) (images : List ImageInfo)
    (rows : List Row) (d : CocoData) (m : List MapRec)
    (h : create_coco_dataset ma o images rows = Except.ok (d, m)) :
    List.all d.annotations (fun a =>
      List.any d.images (fun i => (a.image_id == i.id) &&
        bboxOk i.width i.height a.bbox &&
        segOk i.width i.height a.segmentation)) = true := by
  unfold create_coco_dataset at h
  cases hr : runImages ma o (uniqueFirst (List.map Row.building rows)) rows images 1 with
  | error e => simp only [hr] at h; exact absurd h (by simp)
  | ok t =>
    simp only [hr] at h
    injection h with h'
    injection h' with hd hm
    subst hd
    rw [List.all_eq_true]
    intro a ha
    obtain ⟨img, himg, vps, hf, vp, hvp, k, hk⟩ :=
      runImages_mem ma o _ rows images 1 t hr a ha
    subst hk
    obtain ⟨r, hrmem, i, hpr⟩ := filterRows_mem rows 0 vps hf vp hvp
    obtain ⟨_, _, c, cs, hcoords⟩ := processRow_some hpr
    have hbnd : ∀ q ∈ vp.coords,
        0 ≤ q.1 ∧ q.1 ≤ (img.width : ℤ) ∧ 0 ≤ q.2 ∧ q.2 ≤ (img.height : ℤ) := by
      rw [hcoords]
      exact mem_clampCoords img.width img.height (c :: cs)
    have hcons : ∃ c' cs', vp.coords = c' :: cs' := by
      rw [hcoords]
      exact ⟨_, _, rfl⟩
    obtain ⟨c', cs', hcc⟩ := hcons
    rw [List.any_eq_true]
    refine ⟨toCocoImage img, List.mem_map_of_mem _ himg, ?_⟩
    rw [Bool.and_eq_true, Bool.and_eq_true]
    refine ⟨⟨?_, ?_⟩, ?_⟩
    · simp [annotationFor, toCocoImage]
    · show bboxOk img.width img.height
          (annotationFor (uniqueFirst (List.map Row.building rows)) img k vp).bbox = true
      have hb : (annotationFor (uniqueFirst (List.map Row.building rows)) img k vp).bbox =
          get_bbox_from_coords vp.coords := rfl
      rw [hb, hcc]
      apply bboxOk_of_bounds
      rw [← hcc]
      exact hbnd
    · show segOk img.width img.height
          (annotationFor (uniqueFirst (List.map Row.building rows)) img k vp).segmentation = true
      have hs : (annotationFor (uniqueFirst (List.map Row.building rows)) img k vp).segmentation =
          get_segmentation_from_coords vp.coords := rfl
      rw [hs]
      exact segOk_of_bounds img.width img.height vp.coords hbnd

/-- Witness for C10: the scenario annotation's bbox [10,10,10,10] and
segmentation lie inside the 640 x 640 tile. -/
theorem c10_bbox_segmentation_witness :
    (create_coco_dataset 10 oT [img640] [rowHouse] = Except.ok (dHouse, [mapHouse])) ∧
    List.all dHouse.annotations (fun a =>
      List.any dHouse.images (fun i => (a.image_id == i.id) &&
        bboxOk i.width i.height a.bbox &&
        segOk i.width i.height a.segmentation)) = true :=
  ⟨create_house oT polyHouse rfl rfl,
   c10_bbox_segmentation_within_bounds 10 oT [img640] [rowHouse] dHouse [mapHouse]
     (create_house oT polyHouse rfl rfl)⟩
